import Mathlib

/-!
Verification of the min-xtc1-reader core against its specification.

The development shallowly embeds the Python sources of the repository:

* byte buffers are `List Nat` (each entry one byte value),
* `struct.unpack` of little-endian `uint32` words becomes explicit
  base-256 arithmetic on `Nat`,
* real (numpy `float64`) arithmetic is modelled exactly over `ℚ`,
* generators are modelled as fuel-indexed total functions returning
  `Option` (`none` means the computation did not finish within the
  fuel; a result that holds for every fuel value characterises
  divergence),
* exceptions become `Except` / error components of the result.

Definitions follow the source files `binary_format.py`, `xtc_reader.py`,
`coordinate_transform.py`, `epix_utils.py`, `pixel_coordinates.py`,
`geometry_parser.py` and `geometry_definitions.py`; definitions whose
names carry a `spec` prefix restate formulas of the specification text
for comparison with the code-derived definitions.
-/

namespace XTC1

/-! ## Little-endian 32-bit words (binary_format.py, struct format <I) -/

/-- Encode a 32-bit word into four little-endian bytes, as
`struct.pack` would lay it out. -/
def enc4 (w : Nat) : List Nat :=
  [w % 256, w / 256 % 256, w / 65536 % 256, w / 16777216 % 256]

/-- Recombine four little-endian bytes into the word they denote,
as `struct.unpack` with format `<I` does. -/
def le4 (a b c d : Nat) : Nat := a + 256 * b + 65536 * c + 16777216 * d

theorem le4_enc4 (w : Nat) (h : w < 4294967296) :
    le4 (w % 256) (w / 256 % 256) (w / 65536 % 256) (w / 16777216 % 256) = w := by
  unfold le4
  omega

/-! ## XTC container header (binary_format.py: XTCContainer, TypeIdInfo) -/

/-- Decoded 20-byte XTC container header: five little-endian `uint32`
words, named as in `binary_format.XTCContainer` (the `Damage`, `Src`
and `TypeIdInfo` named tuples store the raw words; their sub-fields
are bit-sliced on demand, mirrored by the projections below). -/
structure XTCContainer where
  damage : Nat
  srcLog : Nat
  srcPhy : Nat
  typeIdValue : Nat
  extent : Nat
  deriving DecidableEq, Repr

/-- Type ID: low 16 bits of the type-tag word (`TypeIdInfo.type_id`). -/
def XTCContainer.typeId (c : XTCContainer) : Nat := c.typeIdValue % 65536

/-- Version: bits 16-30 of the type-tag word (`TypeIdInfo.version`). -/
def XTCContainer.version (c : XTCContainer) : Nat := c.typeIdValue / 65536 % 32768

/-- Compression flag: bit 31 of the type-tag word (`TypeIdInfo.compressed`). -/
def XTCContainer.compressed (c : XTCContainer) : Bool := c.typeIdValue / 2147483648 % 2 = 1

/-- Payload size as the Python property computes it: `extent - 20`,
an `int` that may be negative. -/
def XTCContainer.payloadSizeZ (c : XTCContainer) : Int := (c.extent : Int) - 20

/-- All five stored words fit in 32 bits, the validity condition for a
header that can appear on the wire. -/
def ValidXTC (c : XTCContainer) : Prop :=
  c.damage < 4294967296 ∧ c.srcLog < 4294967296 ∧ c.srcPhy < 4294967296 ∧
    c.typeIdValue < 4294967296 ∧ c.extent < 4294967296

instance (c : XTCContainer) : Decidable (ValidXTC c) := by
  unfold ValidXTC; infer_instance

/-- Compose a type-tag word from its three bit fields, following the
wire layout `16-bit id | 15-bit version << 16 | compression bit << 31`. -/
def mkTypeIdValue (id ver : Nat) (comp : Bool) : Nat :=
  id + 65536 * ver + (if comp then 2147483648 else 0)

/-- The 20-byte little-endian wire form of a container header
(serialisation inverse of `parse_xtc_header`). -/
def encodeXTCHeader (c : XTCContainer) : List Nat :=
  enc4 c.damage ++ enc4 c.srcLog ++ enc4 c.srcPhy ++ enc4 c.typeIdValue ++ enc4 c.extent

theorem encodeXTCHeader_length (c : XTCContainer) : (encodeXTCHeader c).length = 20 := by
  simp [encodeXTCHeader, enc4]

/-- Decode an exactly-20-byte buffer into a container header;
`none` when fewer than 20 bytes are available, matching the
`ValueError` raised by `parse_xtc_header`. -/
def decode20 : List Nat → Option XTCContainer
  | [d0, d1, d2, d3, l0, l1, l2, l3, p0, p1, p2, p3, t0, t1, t2, t3, e0, e1, e2, e3] =>
      some ⟨le4 d0 d1 d2 d3, le4 l0 l1 l2 l3, le4 p0 p1 p2 p3, le4 t0 t1 t2 t3, le4 e0 e1 e2 e3⟩
  | _ => none

/-- `binary_format.parse_xtc_header(data, offset)`: read the 20 bytes
at `offset` and unpack five little-endian words. -/
def parse_xtc_header (data : List Nat) (offset : Nat) : Option XTCContainer :=
  decode20 ((data.drop offset).take 20)

theorem decode20_encode (c : XTCContainer) (hv : ValidXTC c) :
    decode20 (encodeXTCHeader c) = some c := by
  obtain ⟨h1, h2, h3, h4, h5⟩ := hv
  simp only [encodeXTCHeader, enc4, List.cons_append, List.nil_append, decode20,
    le4_enc4 _ h1, le4_enc4 _ h2, le4_enc4 _ h3, le4_enc4 _ h4, le4_enc4 _ h5]

/-- Parsing at an offset whose suffix starts with an encoded header
recovers that header. -/
theorem parse_xtc_header_at (data : List Nat) (off : Nat) (c : XTCContainer)
    (rest : List Nat) (hdrop : data.drop off = encodeXTCHeader c ++ rest)
    (hv : ValidXTC c) : parse_xtc_header data off = some c := by
  unfold parse_xtc_header
  rw [hdrop]
  rw [show (20 : Nat) = (encodeXTCHeader c).length from (encodeXTCHeader_length c).symm,
    List.take_left]
  exact decode20_encode c hv

/-- C4 round-trip, general form used by the claim theorem below. -/
theorem xtc_header_roundtrip_aux (c : XTCContainer) (hv : ValidXTC c) :
    parse_xtc_header (encodeXTCHeader c) 0 = some c := by
  exact parse_xtc_header_at (encodeXTCHeader c) 0 c [] (by simp) hv

/-- C4: encoding a valid container header as its 20-byte little-endian
wire form (five uint32 words: damage, source-log, source-phy, type-tag
composed as 16-bit id | 15-bit version << 16 | compression bit << 31,
extent) and decoding it with `parse_xtc_header` yields the same header,
and the decoded type-tag bit fields are the original id, version and
compression flag. -/
theorem xtc_header_roundtrip (damage srcLog srcPhy ext id ver : Nat) (comp : Bool)
    (hd : damage < 4294967296) (hl : srcLog < 4294967296) (hp : srcPhy < 4294967296)
    (he : ext < 4294967296) (hid : id < 65536) (hver : ver < 32768) :
    parse_xtc_header (encodeXTCHeader ⟨damage, srcLog, srcPhy, mkTypeIdValue id ver comp, ext⟩) 0
        = some ⟨damage, srcLog, srcPhy, mkTypeIdValue id ver comp, ext⟩ ∧
      XTCContainer.typeId ⟨damage, srcLog, srcPhy, mkTypeIdValue id ver comp, ext⟩ = id ∧
      XTCContainer.version ⟨damage, srcLog, srcPhy, mkTypeIdValue id ver comp, ext⟩ = ver ∧
      XTCContainer.compressed ⟨damage, srcLog, srcPhy, mkTypeIdValue id ver comp, ext⟩ = comp := by
  have hval : mkTypeIdValue id ver comp < 4294967296 := by
    unfold mkTypeIdValue; cases comp <;> simp <;> omega
  refine ⟨xtc_header_roundtrip_aux _ ⟨hd, hl, hp, hval, he⟩, ?_, ?_, ?_⟩
  · unfold XTCContainer.typeId mkTypeIdValue
    cases comp <;> simp <;> omega
  · unfold XTCContainer.version mkTypeIdValue
    cases comp <;> simp <;> omega
  · unfold XTCContainer.compressed mkTypeIdValue
    cases comp <;> simp <;> omega

/-- Witness for C4 at a concrete header. -/
theorem xtc_header_roundtrip_witness :
    parse_xtc_header (encodeXTCHeader ⟨7, 258, 99, mkTypeIdValue 1 3 true, 41⟩) 0
        = some ⟨7, 258, 99, mkTypeIdValue 1 3 true, 41⟩ ∧
      XTCContainer.typeId ⟨7, 258, 99, mkTypeIdValue 1 3 true, 41⟩ = 1 ∧
      XTCContainer.version ⟨7, 258, 99, mkTypeIdValue 1 3 true, 41⟩ = 3 ∧
      XTCContainer.compressed ⟨7, 258, 99, mkTypeIdValue 1 3 true, 41⟩ = true :=
  xtc_header_roundtrip 7 258 99 41 1 3 true (by decide) (by decide) (by decide)
    (by decide) (by decide) (by decide)

/-! ## Recursive tree walker (xtc_reader.py: XTCIterator, walk_xtc_tree)

`XTCIterator._parse_containers` is a generator loop; `walk_xtc_tree`
drives it, recursing into containers whose type id is `Id_Xtc = 1`.
The model threads an explicit fuel: one unit is consumed per loop
iteration and per recursive descent.  `none` means the Python loop has
not terminated within the given fuel, so a payload on which the result
is `none` for every fuel diverges.  The `Warning: XTC extent ...`
message printed when `data_end > len(payload)` is modelled as an
`(offset, extent)` entry in the returned violation list; a parse
exception (never reachable behind the length guard) is modelled like
the `except` clause of the loop, stopping the level quietly. -/

/-- One entry of the walk result: recursion level, decoded header,
and the container's data slice. -/
abbrev WalkEntry := Nat × XTCContainer × List Nat

/-- A reported bounds violation: offset of the offending container
and the extent it declared. -/
abbrev BoundsViolation := Nat × Nat

/-- Fuel-indexed model of the sibling loop of
`XTCIterator._parse_containers`, with `walk_xtc_tree`'s recursion into
`Id_Xtc` containers inlined (the `level > max_level` guard of
`walk_xtc_tree` is checked before descending, exactly as the recursive
call performs it on entry). -/
def iterFuel : Nat → List Nat → Nat → Nat → Nat → Option (List WalkEntry × List BoundsViolation)
  | 0, _, _, _, _ => none
  | fuel + 1, payload, offset, level, maxLevel =>
    if offset + 20 ≤ payload.length then
      (parse_xtc_header payload offset).elim (some ([], [])) (fun xtc =>
        if payload.length < offset + xtc.extent then
          some ([], [(offset, xtc.extent)])
        else
          (if xtc.typeId = 1 then
              (if maxLevel < level + 1 then some ([], [])
               else iterFuel fuel ((payload.drop (offset + 20)).take (xtc.extent - 20))
                      0 (level + 1) maxLevel)
            else some ([], [])).bind (fun child =>
            (iterFuel fuel payload (offset + xtc.extent) level maxLevel).bind (fun sib =>
              some ((level, xtc, (payload.drop (offset + 20)).take (xtc.extent - 20))
                  :: child.1 ++ sib.1,
                child.2 ++ sib.2))))
    else some ([], [])

/-- `xtc_reader.walk_xtc_tree(payload, level, max_level)` with explicit
fuel. -/
def walk_xtc_tree (fuel : Nat) (payload : List Nat) (level maxLevel : Nat) :
    Option (List WalkEntry × List BoundsViolation) :=
  if maxLevel < level then some ([], []) else iterFuel fuel payload 0 level maxLevel

/-- A 20-byte container header declaring `extent = 0` (all five words
zero). -/
def zeroExtentPayload : List Nat := encodeXTCHeader ⟨0, 0, 0, 0, 0⟩

theorem iterFuel_zeroExtent_none (fuel : Nat) :
    iterFuel fuel zeroExtentPayload 0 0 10 = none := by
  induction fuel with
  | zero => rfl
  | succ n ih =>
    rw [iterFuel]
    have hlen : zeroExtentPayload.length = 20 := by decide
    have hparse : parse_xtc_header zeroExtentPayload 0 = some ⟨0, 0, 0, 0, 0⟩ := by decide
    rw [hparse, hlen]
    rw [if_pos (by omega : 0 + 20 ≤ 20)]
    rw [Option.elim_some]
    rw [if_neg (by norm_num : ¬ (20 : Nat) < 0 + XTCContainer.extent ⟨0, 0, 0, 0, 0⟩)]
    rw [if_neg (by decide : ¬ XTCContainer.typeId ⟨0, 0, 0, 0, 0⟩ = 1)]
    rw [show (0 : Nat) + XTCContainer.extent ⟨0, 0, 0, 0, 0⟩ = 0 from rfl, ih]
    rfl

/-- C2: the claim promises that `walk_xtc_tree` terminates and returns
a finite list of (depth, header, data-slice) entries for every payload,
whatever extent values the containers declare.  The code violates
this: on a single container header declaring `extent = 0`, the
iterator never advances its offset (`data_end = offset + 0 = offset`)
and re-yields the same container forever.  In the fuel model, no
amount of fuel completes the walk of `zeroExtentPayload` at the
default `max_level = 10`, the formal statement that the Python loop
diverges. -/
theorem walk_xtc_tree_diverges_on_zero_extent (fuel : Nat) :
    walk_xtc_tree fuel zeroExtentPayload 0 10 = none := by
  unfold walk_xtc_tree
  rw [if_neg (by omega : ¬ (10 : Nat) < 0)]
  exact iterFuel_zeroExtent_none fuel

/-! ## C3: bounds-violation handling of the walker -/

/-- Wire form of a leaf container: its 20-byte header followed by its
data bytes. -/
def encodeLeaf (p : XTCContainer × List Nat) : List Nat := encodeXTCHeader p.1 ++ p.2

/-- A well-formed leaf container: valid header words, extent equal to
header size plus data size, and a type id other than the generic
container type `Id_Xtc = 1`. -/
def GoodLeaf (p : XTCContainer × List Nat) : Prop :=
  ValidXTC p.1 ∧ p.1.extent = 20 + p.2.length ∧ p.1.typeId ≠ 1

instance (p : XTCContainer × List Nat) : Decidable (GoodLeaf p) := by
  unfold GoodLeaf XTCContainer.typeId; infer_instance

theorem encodeLeaf_length (p : XTCContainer × List Nat) :
    (encodeLeaf p).length = 20 + p.2.length := by
  simp [encodeLeaf, encodeXTCHeader, enc4]
  omega

/-- Stepping the sibling loop over a sequence of good leaves followed
by a header whose extent overruns the buffer: the loop yields exactly
the leaves and then the single bounds violation, within
`goods.length + 1` fuel. -/
theorem iterFuel_goods_then_bad (goods : List (XTCContainer × List Nat)) :
    ∀ (off : Nat) (payload : List Nat) (bad : XTCContainer) (lvl maxLvl : Nat),
      payload.drop off = (goods.map encodeLeaf).flatten ++ encodeXTCHeader bad →
      (∀ p ∈ goods, GoodLeaf p) → ValidXTC bad → 20 < bad.extent →
      iterFuel (goods.length + 1) payload off lvl maxLvl =
        some (goods.map (fun p => (lvl, p.1, p.2)),
          [(off + (goods.map (fun p => 20 + p.2.length)).sum, bad.extent)]) := by
  induction goods with
  | nil =>
    intro off payload bad lvl maxLvl hdrop _ hvb heb
    simp only [List.map_nil, List.flatten_nil, List.nil_append] at hdrop
    have hlen : payload.length = off + 20 := by
      have h := congrArg List.length hdrop
      rw [List.length_drop, encodeXTCHeader_length] at h
      omega
    rw [iterFuel]
    rw [parse_xtc_header_at payload off bad [] (by simpa using hdrop) hvb]
    rw [if_pos (by omega : off + 20 ≤ payload.length)]
    rw [Option.elim_some]
    rw [if_pos (by omega : payload.length < off + bad.extent)]
    simp

  | cons p gs ih =>
    intro off payload bad lvl maxLvl hdrop hg hvb heb
    obtain ⟨hvp, hep, htp⟩ := hg p (by simp)
    have hdrop2 : payload.drop off =
        encodeXTCHeader p.1 ++ (p.2 ++ ((gs.map encodeLeaf).flatten ++ encodeXTCHeader bad)) := by
      simpa [encodeLeaf, List.append_assoc] using hdrop
    have hdrop3 : payload.drop off =
        encodeLeaf p ++ ((gs.map encodeLeaf).flatten ++ encodeXTCHeader bad) := by
      simpa [encodeLeaf, List.append_assoc] using hdrop
    have hlen : payload.length =
        off + 20 + p.2.length + (gs.map encodeLeaf).flatten.length + 20 := by
      have h := congrArg List.length hdrop2
      rw [List.length_drop] at h
      simp only [List.length_append] at h
      rw [encodeXTCHeader_length, encodeXTCHeader_length] at h
      omega
    rw [show (p :: gs).length + 1 = (gs.length + 1) + 1 from by simp]
    rw [iterFuel]
    rw [parse_xtc_header_at payload off p.1 _ hdrop2 hvp]
    rw [if_pos (by omega : off + 20 ≤ payload.length)]
    rw [Option.elim_some]
    rw [hep]
    rw [if_neg (by omega : ¬ payload.length < off + (20 + p.2.length))]
    have hdat : (payload.drop (off + 20)).take (20 + p.2.length - 20) = p.2 := by
      have h1 : payload.drop (off + 20) = (payload.drop off).drop 20 := by
        rw [List.drop_drop, Nat.add_comm]
      rw [h1, hdrop2, List.drop_left' (encodeXTCHeader_length p.1)]
      rw [show 20 + p.2.length - 20 = p.2.length from by omega, List.take_left]
    rw [hdat]
    rw [if_neg htp]
    have hsib : payload.drop (off + (20 + p.2.length)) =
        (gs.map encodeLeaf).flatten ++ encodeXTCHeader bad := by
      have h1 : payload.drop (off + (20 + p.2.length)) =
          (payload.drop off).drop (20 + p.2.length) := by
        rw [List.drop_drop, Nat.add_comm]
      rw [h1, hdrop3, List.drop_left' (encodeLeaf_length p)]
    rw [ih (off + (20 + p.2.length)) payload bad lvl maxLvl hsib
      (fun q hq => hg q (by simp [hq])) hvb heb]
    simp [List.sum_cons, Nat.add_assoc]

/-- A payload on which the original C3 claim fails: a container header
declaring `extent = 0` followed, at offset 20, by a container header
declaring `extent = 25` — which overruns the 40-byte buffer
(`20 + 25 > 40`), so the payload is within the claim's scope. -/
def stalledViolationPayload : List Nat :=
  encodeXTCHeader ⟨0, 0, 0, 0, 0⟩ ++ encodeXTCHeader ⟨0, 0, 0, 0, 25⟩

theorem iterFuel_stalled_none (fuel : Nat) :
    iterFuel fuel stalledViolationPayload 0 0 10 = none := by
  induction fuel with
  | zero => rfl
  | succ n ih =>
    rw [iterFuel]
    have hlen : stalledViolationPayload.length = 40 := by decide
    have hparse : parse_xtc_header stalledViolationPayload 0 = some ⟨0, 0, 0, 0, 0⟩ := by
      decide
    rw [hparse, hlen]
    rw [if_pos (by omega : 0 + 20 ≤ 40)]
    rw [Option.elim_some]
    rw [if_neg (by norm_num : ¬ (40 : Nat) < 0 + XTCContainer.extent ⟨0, 0, 0, 0, 0⟩)]
    rw [if_neg (by decide : ¬ XTCContainer.typeId ⟨0, 0, 0, 0, 0⟩ = 1)]
    rw [show (0 : Nat) + XTCContainer.extent ⟨0, 0, 0, 0, 0⟩ = 0 from rfl, ih]
    rfl

/-- The walk at the default depth limit completes within no fuel at
all: the formal statement that the Python loop runs forever, so the
walk never yields a container and never reports a violation. -/
def walkNeverFinishes (payload : List Nat) : Prop :=
  ∀ fuel, walk_xtc_tree fuel payload 0 10 = none

/-- C3 counterexample: the claim quantifies over every payload in
which some container header declares `offset + extent > len(payload)`.
`stalledViolationPayload` is such a payload (its second header, at
offset 20, declares extent 25 with only 20 bytes remaining), yet the
walk diverges on it — the zero-extent first container keeps the
iterator at offset 0 forever, so the walk never yields the containers
before the offender and never reports the bounds violation. -/
theorem walk_xtc_tree_stalled_violation_counterexample :
    parse_xtc_header stalledViolationPayload 20 = some ⟨0, 0, 0, 0, 25⟩ ∧
      stalledViolationPayload.length < 20 + 25 ∧
      walkNeverFinishes stalledViolationPayload := by
  refine ⟨by decide, by decide, ?_⟩
  intro fuel
  unfold walk_xtc_tree
  rw [if_neg (by omega : ¬ (10 : Nat) < 0)]
  exact iterFuel_stalled_none fuel

/-- C3 (amended): for a payload consisting of well-formed leaf
containers (valid header words, extent equal to header size plus data
size, non-container type) followed by a container header whose
declared extent overruns the buffer (`offset + extent > len(payload)`),
the walk yields every container discovered before the offending one,
reports exactly one bounds violation (the warning printed by
`_parse_containers`, modelled as the violation list) naming the
offending node's offset and extent, and terminates normally rather
than raising a failure that aborts the walk.  The well-formedness of
the preceding containers cannot be dropped: on
`stalledViolationPayload` the walk diverges instead. -/
theorem walk_xtc_tree_bounds_violation_reported
    (goods : List (XTCContainer × List Nat)) (bad : XTCContainer)
    (hg : ∀ p ∈ goods, GoodLeaf p) (hvb : ValidXTC bad) (heb : 20 < bad.extent) :
    walk_xtc_tree (goods.length + 1) ((goods.map encodeLeaf).flatten ++ encodeXTCHeader bad)
        0 10 =
      some (goods.map (fun p => (0, p.1, p.2)),
        [((goods.map (fun p => 20 + p.2.length)).sum, bad.extent)]) := by
  unfold walk_xtc_tree
  rw [if_neg (by omega : ¬ (10 : Nat) < 0)]
  have h := iterFuel_goods_then_bad goods 0
    ((goods.map encodeLeaf).flatten ++ encodeXTCHeader bad) bad 0 10 (by simp) hg hvb heb
  simpa using h

/-- Witness for C3: one good leaf container followed by a header whose
extent 25 overruns the remaining 20 bytes. -/
theorem walk_xtc_tree_bounds_violation_reported_witness :
    walk_xtc_tree 2
        (([((⟨1, 2, 3, 5, 21⟩ : XTCContainer), [9])].map encodeLeaf).flatten ++
          encodeXTCHeader ⟨0, 0, 0, 0, 25⟩) 0 10 =
      some ([(0, (⟨1, 2, 3, 5, 21⟩ : XTCContainer), [9])], [(21, 25)]) := by
  have h := walk_xtc_tree_bounds_violation_reported
    [((⟨1, 2, 3, 5, 21⟩ : XTCContainer), [9])] ⟨0, 0, 0, 0, 25⟩
    (by decide) (by decide) (by decide)
  simpa using h

/-! ## Event stream reader (xtc_reader.py: XTCReader._read_datagrams)

The file is a byte list, the cursor `pos` mirrors `self._bytes_read`,
and `fd.read(n)` becomes `(file.drop pos).take n`.  The generator
catches every exception, prints it and breaks; the model therefore
returns an outcome value: `finished` for the clean end-of-stream
break, `loggedError e` for the caught-printed-break path, and
`raised e` for an exception propagating to the caller — a constructor
the faithful model never produces, recording that the source code
surfaces no exception to its consumer. -/

/-- Decoded fields of the 24-byte datagram header chunk:
six little-endian `uint32` words. -/
structure DgramHead where
  ns : Nat
  sec : Nat
  stampLow : Nat
  stampHigh : Nat
  env : Nat
  damage : Nat
  deriving DecidableEq, Repr

/-- Decode the 24-byte datagram header chunk (`parse_datagram_header`
unpacking `<4I` then `<I` then `<I`). -/
def decode24 : List Nat → Option DgramHead
  | [a0, a1, a2, a3, b0, b1, b2, b3, c0, c1, c2, c3,
     d0, d1, d2, d3, e0, e1, e2, e3, f0, f1, f2, f3] =>
      some ⟨le4 a0 a1 a2 a3, le4 b0 b1 b2 b3, le4 c0 c1 c2 c3,
        le4 d0 d1 d2 d3, le4 e0 e1 e2 e3, le4 f0 f1 f2 f3⟩
  | _ => none

/-- Remaining four words of the XTC header
(`complete_datagram_with_xtc` unpacking `<4I`). -/
structure XTCRem where
  srcLog : Nat
  srcPhy : Nat
  typeIdValue : Nat
  extent : Nat
  deriving DecidableEq, Repr

/-- Decode the 16-byte XTC header remainder. -/
def decode16 : List Nat → Option XTCRem
  | [a0, a1, a2, a3, b0, b1, b2, b3, c0, c1, c2, c3, d0, d1, d2, d3] =>
      some ⟨le4 a0 a1 a2 a3, le4 b0 b1 b2 b3, le4 c0 c1 c2 c3, le4 d0 d1 d2 d3⟩
  | _ => none

/-- Sequence fields of a datagram: clock words and the bit-sliced
timestamp fields, extracted as `parse_datagram_header` does. -/
structure Sequence where
  clockSeconds : Nat
  clockNanoseconds : Nat
  ticks : Nat
  control : Nat
  fiducials : Nat
  vector : Nat
  deriving DecidableEq, Repr

/-- Build the sequence from the four raw words; the bit slicing follows
`parse_datagram_header`: ticks = low 24 bits, control = next 8 bits,
fiducials = low 17 bits of the second word, vector = next 15 bits. -/
def mkSequence (ns sec low high : Nat) : Sequence :=
  ⟨sec, ns, low % 16777216, low / 16777216 % 256, high % 131072, high / 131072 % 32768⟩

/-- A complete datagram: sequence, environment word and the completed
outer XTC container header. -/
structure Datagram where
  seq : Sequence
  env : Nat
  xtc : XTCContainer
  deriving DecidableEq, Repr

/-- Errors raised inside the reader loop's `try` block. -/
inductive ReadError where
  | incompleteXTCHeader : ReadError
  | incompletePayload (got declared : Nat) : ReadError
  deriving DecidableEq, Repr

/-- How one pass of the reader generator ends.  `raised` models an
exception reaching the caller; the source's blanket `except` clause
means the faithful translation below never constructs it. -/
inductive ReaderOutcome where
  | finished : ReaderOutcome
  | loggedError (e : ReadError) : ReaderOutcome
  | raised (e : ReadError) : ReaderOutcome
  | outOfFuel : ReaderOutcome
  deriving DecidableEq, Repr

/-- Fuel-indexed model of the `while self._bytes_read < self._file_size`
loop of `XTCReader._read_datagrams`. -/
def readLoop : Nat → List Nat → Nat → List (Datagram × List Nat) × ReaderOutcome
  | 0, _, _ => ([], .outOfFuel)
  | fuel + 1, file, pos =>
    if pos < file.length then
      let hdr := (file.drop pos).take 24
      if hdr.length < 24 then ([], .finished)
      else
        (decode24 hdr).elim ([], .finished) (fun h =>
          let rem := (file.drop (pos + 24)).take 16
          if rem.length < 16 then ([], .loggedError .incompleteXTCHeader)
          else
            (decode16 rem).elim ([], .loggedError .incompleteXTCHeader) (fun r =>
              let dg : Datagram := ⟨mkSequence h.ns h.sec h.stampLow h.stampHigh, h.env,
                ⟨h.damage, r.srcLog, r.srcPhy, r.typeIdValue, r.extent⟩⟩
              if 20 < r.extent then
                let psize := r.extent - 20
                let pdata := (file.drop (pos + 40)).take psize
                if pdata.length < psize then
                  ([], .loggedError (.incompletePayload pdata.length psize))
                else
                  let rest := readLoop fuel file (pos + 40 + psize)
                  ((dg, rem ++ pdata) :: rest.1, rest.2)
              else
                let rest := readLoop fuel file (pos + 40)
                ((dg, rem) :: rest.1, rest.2)))
    else ([], .finished)

/-- `XTCReader._read_datagrams` run to completion on a whole file; the
fuel `file.length + 1` suffices because every loop iteration advances
the cursor by at least 40 bytes. -/
def readDatagrams (file : List Nat) : List (Datagram × List Nat) × ReaderOutcome :=
  readLoop (file.length + 1) file 0

theorem readLoop_finished (fuel : Nat) (file : List Nat) (pos : Nat)
    (hf : 0 < fuel) (hp : file.length ≤ pos) : readLoop fuel file pos = ([], .finished) := by
  cases fuel with
  | zero => omega
  | succ n =>
    rw [readLoop]
    rw [if_neg (by omega : ¬ pos < file.length)]

/-- The 24-byte datagram header chunk on the wire. -/
def encodeDgramHeader (ns sec low high env damage : Nat) : List Nat :=
  enc4 ns ++ enc4 sec ++ enc4 low ++ enc4 high ++ enc4 env ++ enc4 damage

/-- The 16-byte XTC header remainder on the wire. -/
def encodeXTCRemainder (lg ph tid ext : Nat) : List Nat :=
  enc4 lg ++ enc4 ph ++ enc4 tid ++ enc4 ext

theorem encodeDgramHeader_length (ns sec low high env damage : Nat) :
    (encodeDgramHeader ns sec low high env damage).length = 24 := by
  simp [encodeDgramHeader, enc4]

theorem encodeXTCRemainder_length (lg ph tid ext : Nat) :
    (encodeXTCRemainder lg ph tid ext).length = 16 := by
  simp [encodeXTCRemainder, enc4]

theorem decode24_encode (ns sec low high env damage : Nat)
    (h1 : ns < 4294967296) (h2 : sec < 4294967296) (h3 : low < 4294967296)
    (h4 : high < 4294967296) (h5 : env < 4294967296) (h6 : damage < 4294967296) :
    decode24 (encodeDgramHeader ns sec low high env damage) =
      some ⟨ns, sec, low, high, env, damage⟩ := by
  simp only [encodeDgramHeader, enc4, List.cons_append, List.nil_append, decode24,
    le4_enc4 _ h1, le4_enc4 _ h2, le4_enc4 _ h3, le4_enc4 _ h4, le4_enc4 _ h5, le4_enc4 _ h6]

theorem decode16_encode (lg ph tid ext : Nat)
    (h1 : lg < 4294967296) (h2 : ph < 4294967296) (h3 : tid < 4294967296)
    (h4 : ext < 4294967296) :
    decode16 (encodeXTCRemainder lg ph tid ext) = some ⟨lg, ph, tid, ext⟩ := by
  simp only [encodeXTCRemainder, enc4, List.cons_append, List.nil_append, decode16,
    le4_enc4 _ h1, le4_enc4 _ h2, le4_enc4 _ h3, le4_enc4 _ h4]

/-- C6 (amended): `payload_size` is computed as `extent - 20`, but the
invariant `extent >= 20` is not enforced by the reader: a record whose
outer container declares `extent <= 20` (so a nonpositive payload
size, negative when `extent < 20`) is read without any error — the
reader yields the datagram with the 16 header-remainder bytes as its
payload and the stream finishes cleanly. -/
theorem reader_small_extent_yields_empty_payload
    (ns sec low high env damage lg ph tid ext : Nat)
    (h1 : ns < 4294967296) (h2 : sec < 4294967296) (h3 : low < 4294967296)
    (h4 : high < 4294967296) (h5 : env < 4294967296) (h6 : damage < 4294967296)
    (h7 : lg < 4294967296) (h8 : ph < 4294967296) (h9 : tid < 4294967296)
    (h10 : ext < 4294967296) (hext : ext ≤ 20) :
    readDatagrams
        (encodeDgramHeader ns sec low high env damage ++ encodeXTCRemainder lg ph tid ext) =
      ([(⟨mkSequence ns sec low high, env, ⟨damage, lg, ph, tid, ext⟩⟩,
          encodeXTCRemainder lg ph tid ext)], .finished) ∧
      XTCContainer.payloadSizeZ ⟨damage, lg, ph, tid, ext⟩ = (ext : Int) - 20 := by
  constructor
  swap
  · rfl
  set A := encodeDgramHeader ns sec low high env damage with hA_def
  set B := encodeXTCRemainder lg ph tid ext with hB_def
  have hA : A.length = 24 := by rw [hA_def]; exact encodeDgramHeader_length ns sec low high env damage
  have hB : B.length = 16 := by rw [hB_def]; exact encodeXTCRemainder_length lg ph tid ext
  have hlen40 : (A ++ B).length = 40 := by rw [List.length_append, hA, hB]
  unfold readDatagrams
  rw [hlen40]
  rw [readLoop]
  rw [if_pos (show (0 : Nat) < (A ++ B).length by rw [hlen40]; norm_num)]
  rw [List.drop_zero, List.take_left' hA]
  rw [if_neg (show ¬ A.length < 24 by rw [hA]; omega)]
  have hdec24 : decode24 A = some ⟨ns, sec, low, high, env, damage⟩ := by
    rw [hA_def]; exact decode24_encode ns sec low high env damage h1 h2 h3 h4 h5 h6
  rw [hdec24, Option.elim_some]
  rw [show (0 : Nat) + 24 = 24 from rfl, List.drop_left' hA,
    List.take_of_length_le (le_of_eq hB)]
  rw [if_neg (show ¬ B.length < 16 by rw [hB]; omega)]
  have hdec16 : decode16 B = some ⟨lg, ph, tid, ext⟩ := by
    rw [hB_def]; exact decode16_encode lg ph tid ext h7 h8 h9 h10
  rw [hdec16, Option.elim_some]
  simp only []
  rw [if_neg (show ¬ 20 < ext by omega)]
  rw [readLoop_finished 40 (A ++ B) (0 + 40) (by omega) (by rw [hlen40])]

/-- Witness for C6 (amended) at concrete field values with extent 12. -/
theorem reader_small_extent_yields_empty_payload_witness :
    readDatagrams (encodeDgramHeader 1 2 3 4 5 6 ++ encodeXTCRemainder 7 8 9 12) =
      ([(⟨mkSequence 1 2 3 4, 5, ⟨6, 7, 8, 9, 12⟩⟩, encodeXTCRemainder 7 8 9 12)],
        .finished) ∧
      XTCContainer.payloadSizeZ ⟨6, 7, 8, 9, 12⟩ = (12 : Int) - 20 :=
  reader_small_extent_yields_empty_payload 1 2 3 4 5 6 7 8 9 12
    (by decide) (by decide) (by decide) (by decide) (by decide) (by decide)
    (by decide) (by decide) (by decide) (by decide) (by decide)

/-- C6 counterexample: a 40-byte file whose outer container declares
`extent = 0`, violating `extent >= 20` (payload size -20).  The claim
says the violation is surfaced as an error and never silently
tolerated; the reader instead yields the record with an empty payload
and finishes with no error at all. -/
theorem reader_tolerates_small_extent_counterexample :
    readDatagrams (List.replicate 40 0) =
      ([(⟨mkSequence 0 0 0 0, 0, ⟨0, 0, 0, 0, 0⟩⟩, List.replicate 16 0)],
        ReaderOutcome.finished) := by
  decide

/-- C7 (amended): when the outer header completes but the payload read
returns fewer bytes than the declared extent requires, the reader logs
a truncated-record error (the generator's blanket `except` clause
prints it) and stops yielding events from the file; the error is not
raised to the caller. -/
theorem reader_truncated_payload_logged_not_raised
    (ns sec low high env damage lg ph tid ext : Nat) (short : List Nat)
    (h1 : ns < 4294967296) (h2 : sec < 4294967296) (h3 : low < 4294967296)
    (h4 : high < 4294967296) (h5 : env < 4294967296) (h6 : damage < 4294967296)
    (h7 : lg < 4294967296) (h8 : ph < 4294967296) (h9 : tid < 4294967296)
    (h10 : ext < 4294967296) (hext : 20 < ext) (hshort : short.length < ext - 20) :
    readDatagrams
        (encodeDgramHeader ns sec low high env damage ++
          (encodeXTCRemainder lg ph tid ext ++ short)) =
      ([], .loggedError (.incompletePayload short.length (ext - 20))) := by
  set A := encodeDgramHeader ns sec low high env damage with hA_def
  set B := encodeXTCRemainder lg ph tid ext with hB_def
  have hA : A.length = 24 := by rw [hA_def]; exact encodeDgramHeader_length ns sec low high env damage
  have hB : B.length = 16 := by rw [hB_def]; exact encodeXTCRemainder_length lg ph tid ext
  have hlen : (A ++ (B ++ short)).length = 40 + short.length := by
    simp only [List.length_append]; omega
  unfold readDatagrams
  rw [hlen]
  rw [readLoop]
  rw [if_pos (show (0 : Nat) < (A ++ (B ++ short)).length by rw [hlen]; omega)]
  rw [List.drop_zero, List.take_left' hA]
  rw [if_neg (show ¬ A.length < 24 by rw [hA]; omega)]
  have hdec24 : decode24 A = some ⟨ns, sec, low, high, env, damage⟩ := by
    rw [hA_def]; exact decode24_encode ns sec low high env damage h1 h2 h3 h4 h5 h6
  rw [hdec24, Option.elim_some]
  rw [show (0 : Nat) + 24 = 24 from rfl, List.drop_left' hA, List.take_left' hB]
  rw [if_neg (show ¬ B.length < 16 by rw [hB]; omega)]
  have hdec16 : decode16 B = some ⟨lg, ph, tid, ext⟩ := by
    rw [hB_def]; exact decode16_encode lg ph tid ext h7 h8 h9 h10
  rw [hdec16, Option.elim_some]
  simp only []
  rw [if_pos hext]
  have e3 : (A ++ (B ++ short)).drop (0 + 40) = short := by
    rw [show (0 + 40 : Nat) = 24 + 16 from rfl, ← List.drop_drop,
      List.drop_left' hA, List.drop_left' hB]
  rw [e3, List.take_of_length_le (by omega : short.length ≤ ext - 20)]
  rw [if_pos (show short.length < ext - 20 from hshort)]

/-- Witness for C7 (amended): extent 100 but only 3 payload bytes. -/
theorem reader_truncated_payload_logged_not_raised_witness :
    readDatagrams
        (encodeDgramHeader 1 2 3 4 5 6 ++ (encodeXTCRemainder 7 8 9 100 ++ [1, 2, 3])) =
      ([], .loggedError (.incompletePayload 3 80)) :=
  reader_truncated_payload_logged_not_raised 1 2 3 4 5 6 7 8 9 100 [1, 2, 3]
    (by decide) (by decide) (by decide) (by decide) (by decide) (by decide)
    (by decide) (by decide) (by decide) (by decide) (by decide) (by decide)

/-- C7 counterexample: a record whose header is complete but whose
payload read is 3 bytes short of the declared 80.  The claim says a
truncated-record error is surfaced to the caller, not merely logged;
the model built from the source ends with the `loggedError` outcome —
the generator's `except` clause catches the `ValueError`, prints it
and breaks, so no exception (the `raised` outcome) ever reaches the
caller. -/
theorem reader_logs_truncated_payload_counterexample :
    readDatagrams (List.replicate 36 0 ++ enc4 100 ++ [1, 2, 3]) =
      ([], ReaderOutcome.loggedError (ReadError.incompletePayload 3 80)) := by
  decide

/-! ## Coordinate-to-pixel conversion and image assembly
(coordinate_transform.py: coordinates_to_pixel_indices;
epix_utils.py: img_from_pixel_arrays)

Numpy `float64` arrays become `List ℚ` (the claims are stated in exact
real arithmetic; `ℚ` realises it exactly and keeps every definition
evaluable).  The `dtype=np.uint32` conversion is truncation toward
zero followed by reduction mod 2^32 — the semantics the code relies on
for the nonnegative in-range values produced here. -/

/-- Minimum of a coordinate list (`np.min` of a nonempty array;
`0` for the empty list, on which the source never calls it). -/
def qmin : List ℚ → ℚ
  | [] => 0
  | x :: xs => xs.foldl min x

/-- Maximum of an index list (`np.max` of a nonempty array). -/
def natListMax : List Nat → Nat
  | [] => 0
  | x :: xs => xs.foldl max x

/-- Truncation toward zero, the C float-to-integer conversion. -/
def qtrunc (q : ℚ) : Int := if q < 0 then -(Int.floor (-q)) else Int.floor q

/-- The `np.uint32` cast of a scaled coordinate: truncate toward zero
and wrap modulo 2^32. -/
def u32cast (q : ℚ) : Nat := ((qtrunc q) % 4294967296).toNat

/-- Row (or column) indices computed by `img_from_pixel_arrays`:
subtract the half-pixel-adjusted minimum, divide by the pitch, cast
to `uint32`. -/
def rowIndicesImg (xs : List ℚ) (pitch : ℚ) : List Nat :=
  xs.map (fun x => u32cast ((x - (qmin xs - pitch / 2)) / pitch))

/-- An assembled image: its dimensions and a total pixel-lookup
function (`np.zeros` background, then fancy-indexing assignment). -/
structure AssembledImage where
  height : Nat
  width : Nat
  pix : Nat → Nat → ℚ

/-- `epix_utils.img_from_pixel_arrays` after the panel arrays have been
concatenated (the source flattens and concatenates the per-panel
coordinate and data arrays before this computation; the model starts
from the concatenated lists).  Dimensions are `max(index) + 1`; the
assignment `image[row_indices, col_indices] = data_all` writes in
array order, so a colliding bin keeps the last value. -/
def img_from_pixel_arrays (xs ys vals : List ℚ) (pitch : ℚ) : AssembledImage :=
  if xs.isEmpty then ⟨1, 1, fun _ _ => 0⟩
  else
    let rows := rowIndicesImg xs pitch
    let cols := rowIndicesImg ys pitch
    ⟨natListMax rows + 1, natListMax cols + 1,
      fun r c => ((rows.zip cols).zip vals).foldl
        (fun a t => if t.1 = (r, c) then t.2 else a) 0⟩

/-- `coordinate_transform.coordinates_to_pixel_indices`, including the
optional extra pixel offset that is applied only when positive. -/
def coordinates_to_pixel_indices (xs ys : List ℚ) (pitch ox oy : ℚ) :
    List Nat × List Nat :=
  let xminadj := qmin xs - pitch / 2 - (if 0 < ox then ox * pitch else 0)
  let yminadj := qmin ys - pitch / 2 - (if 0 < oy then oy * pitch else 0)
  (xs.map (fun x => u32cast ((x - xminadj) / pitch)),
   ys.map (fun y => u32cast ((y - yminadj) / pitch)))

/-- Row indices exactly as the specification text states them:
`floor((x - (min x - pitch/2)) / pitch)`, a nonnegative integer. -/
def specRowIndices (xs : List ℚ) (pitch : ℚ) : List Nat :=
  xs.map (fun x => (Int.floor ((x - (qmin xs - pitch / 2)) / pitch)).toNat)

theorem foldl_min_le (l : List ℚ) : ∀ (a : ℚ), l.foldl min a ≤ a ∧ ∀ x ∈ l, l.foldl min a ≤ x := by
  induction l with
  | nil => intro a; simp
  | cons y t ih =>
    intro a
    refine ⟨?_, ?_⟩
    · exact le_trans (le_trans (ih (min a y)).1 (min_le_left a y)) le_rfl
    · intro x hx
      rcases List.mem_cons.1 hx with h | h
      · subst h
        exact le_trans (ih (min a x)).1 (min_le_right a x)
      · exact (ih (min a y)).2 x h

theorem qmin_le (xs : List ℚ) (x : ℚ) (hx : x ∈ xs) : qmin xs ≤ x := by
  cases xs with
  | nil => cases hx
  | cons y t =>
    unfold qmin
    rcases List.mem_cons.1 hx with h | h
    · subst h; exact (foldl_min_le t x).1
    · exact (foldl_min_le t y).2 x h

theorem u32cast_eq_floor (q : ℚ) (h0 : 0 ≤ q) (hlt : q < 4294967296) :
    u32cast q = (Int.floor q).toNat := by
  unfold u32cast qtrunc
  rw [if_neg (not_lt.2 h0)]
  have hf0 : 0 ≤ Int.floor q := Int.floor_nonneg.2 h0
  have hflt : Int.floor q < 4294967296 := by
    rw [Int.floor_lt]
    push_cast
    exact hlt
  rw [Int.emod_eq_of_lt hf0 (by omega)]

theorem scaled_nonneg (xs : List ℚ) (pitch x : ℚ) (hp : 0 < pitch) (hmem : x ∈ xs) :
    0 ≤ (x - (qmin xs - pitch / 2)) / pitch := by
  apply div_nonneg _ (le_of_lt hp)
  have := qmin_le xs x hmem
  linarith

theorem scaled_lt (xs : List ℚ) (pitch x : ℚ) (hp : 0 < pitch)
    (hb : x - qmin xs < 4294967295 * pitch) :
    (x - (qmin xs - pitch / 2)) / pitch < 4294967296 := by
  rw [div_lt_iff₀ hp]
  linarith

/-- Under the standing hypotheses, the `uint32`-cast indices of the
source coincide with the claim's `floor` formula. -/
theorem rowIndicesImg_eq_spec (xs : List ℚ) (pitch : ℚ) (hp : 0 < pitch)
    (hb : ∀ x ∈ xs, x - qmin xs < 4294967295 * pitch) :
    rowIndicesImg xs pitch = specRowIndices xs pitch := by
  unfold rowIndicesImg specRowIndices
  apply List.map_congr_left
  intro x hx
  exact u32cast_eq_floor _ (scaled_nonneg xs pitch x hp hx) (scaled_lt xs pitch x hp (hb x hx))

/-- Folding the write sequence computes the last value written to a
bin (and the fold's start value for untouched bins). -/
theorem foldl_lastWrite (l : List ((Nat × Nat) × ℚ)) :
    ∀ (a : ℚ) (rc : Nat × Nat),
      l.foldl (fun a t => if t.1 = rc then t.2 else a) a =
        ((l.filter (fun t => t.1 = rc)).map (fun t => t.2)).getLastD a := by
  induction l with
  | nil => intro a rc; rfl
  | cons t l ih =>
    intro a rc
    by_cases h : t.1 = rc
    · simp only [List.foldl_cons]
      rw [if_pos h, List.filter_cons_of_pos (by simp [h]), List.map_cons,
        List.getLastD_cons]
      exact ih t.2 rc
    · simp only [List.foldl_cons]
      rw [if_neg h, List.filter_cons_of_neg (by simp [h])]
      exact ih a rc

/-- C1: for a nonempty concatenated coordinate set with matching pixel
values, the assembled image has shape exactly
`(max(row_index) + 1, max(col_index) + 1)` with
`row_index = floor((x - (min x - pitch/2)) / pitch)` and
`col_index = floor((y - (min y - pitch/2)) / pitch)` (the unsigned
integer truncation of the source agrees with these floors), and each
bin of the image holds the last value written to it. -/
theorem img_from_pixel_arrays_shape_and_last_write
    (xs ys vals : List ℚ) (pitch : ℚ)
    (hne : xs ≠ []) (hxy : xs.length = ys.length) (hyv : ys.length = vals.length)
    (hp : 0 < pitch)
    (hbx : ∀ x ∈ xs, x - qmin xs < 4294967295 * pitch)
    (hby : ∀ y ∈ ys, y - qmin ys < 4294967295 * pitch) :
    (img_from_pixel_arrays xs ys vals pitch).height
        = natListMax (specRowIndices xs pitch) + 1 ∧
      (img_from_pixel_arrays xs ys vals pitch).width
        = natListMax (specRowIndices ys pitch) + 1 ∧
      ∀ r c, (img_from_pixel_arrays xs ys vals pitch).pix r c =
        (((((specRowIndices xs pitch).zip (specRowIndices ys pitch)).zip vals).filter
            (fun t => t.1 = (r, c))).map (fun t => t.2)).getLastD 0 := by
  have hrows := rowIndicesImg_eq_spec xs pitch hp hbx
  have hcols := rowIndicesImg_eq_spec ys pitch hp hby
  have hif : xs.isEmpty = false := by
    cases xs with
    | nil => exact absurd rfl hne
    | cons a t => rfl
  unfold img_from_pixel_arrays
  rw [hif]
  simp only [Bool.false_eq_true, if_false]
  refine ⟨by rw [hrows], by rw [hcols], ?_⟩
  intro r c
  simp only [hrows, hcols]
  exact foldl_lastWrite _ 0 (r, c)

/-- Witness for C1 on two pixels with a bin collision-free layout. -/
theorem img_from_pixel_arrays_shape_and_last_write_witness :
    (img_from_pixel_arrays [0, 250] [0, 100] [5, 7] 100).height
        = natListMax (specRowIndices [0, 250] 100) + 1 ∧
      (img_from_pixel_arrays [0, 250] [0, 100] [5, 7] 100).width
        = natListMax (specRowIndices [0, 100] 100) + 1 ∧
      ∀ r c, (img_from_pixel_arrays [0, 250] [0, 100] [5, 7] 100).pix r c =
        (((((specRowIndices [0, 250] 100).zip (specRowIndices [0, 100] 100)).zip
              [5, 7]).filter (fun t => t.1 = (r, c))).map (fun t => t.2)).getLastD 0 :=
  img_from_pixel_arrays_shape_and_last_write [0, 250] [0, 100] [5, 7] 100
    (by decide) (by decide) (by decide) (by norm_num)
    (by norm_num [qmin, min_def]) (by norm_num [qmin, min_def])

/-- C9: with the default (non-positive) extra offsets and positive
pitch, every row and column index produced by the pixel-index
conversion is nonnegative — the `uint32` cast never wraps, so the
computed indices equal the plain floors — and the pixel attaining the
minimum x (resp. y) coordinate maps to row (resp. column) 0, because
its scaled value is `(pitch/2)/pitch = 1/2` before truncation. -/
theorem pixel_indices_nonneg_min_maps_zero
    (xs ys : List ℚ) (pitch ox oy : ℚ)
    (hx : xs ≠ []) (hy : ys ≠ []) (hp : 0 < pitch) (hox : ox ≤ 0) (hoy : oy ≤ 0)
    (hbx : ∀ x ∈ xs, x - qmin xs < 4294967295 * pitch)
    (hby : ∀ y ∈ ys, y - qmin ys < 4294967295 * pitch) :
    (∀ x ∈ xs, 0 ≤ Int.floor ((x - (qmin xs - pitch / 2)) / pitch)) ∧
      (∀ y ∈ ys, 0 ≤ Int.floor ((y - (qmin ys - pitch / 2)) / pitch)) ∧
      (coordinates_to_pixel_indices xs ys pitch ox oy).1 = specRowIndices xs pitch ∧
      (coordinates_to_pixel_indices xs ys pitch ox oy).2 = specRowIndices ys pitch ∧
      (∀ x ∈ xs, x = qmin xs → u32cast ((x - (qmin xs - pitch / 2)) / pitch) = 0) ∧
      (∀ y ∈ ys, y = qmin ys → u32cast ((y - (qmin ys - pitch / 2)) / pitch) = 0) := by
  have hmz : ∀ (l : List ℚ) (v : ℚ), v ∈ l → v = qmin l →
      u32cast ((v - (qmin l - pitch / 2)) / pitch) = 0 := by
    intro l v _ hvmin
    have hne0 : pitch ≠ 0 := ne_of_gt hp
    have heq : (v - (qmin l - pitch / 2)) / pitch = 1 / 2 := by
      rw [hvmin]
      field_simp
      ring
    rw [heq]
    unfold u32cast qtrunc
    rw [if_neg (by norm_num : ¬ (1 / 2 : ℚ) < 0)]
    norm_num
  have hcomp1 : (coordinates_to_pixel_indices xs ys pitch ox oy).1 = rowIndicesImg xs pitch := by
    unfold coordinates_to_pixel_indices rowIndicesImg
    simp only [if_neg (not_lt.2 hox), sub_zero]
  have hcomp2 : (coordinates_to_pixel_indices xs ys pitch ox oy).2 = rowIndicesImg ys pitch := by
    unfold coordinates_to_pixel_indices rowIndicesImg
    simp only [if_neg (not_lt.2 hoy), sub_zero]
  refine ⟨?_, ?_, ?_, ?_, hmz xs, hmz ys⟩
  · intro x hmem
    exact Int.floor_nonneg.2 (scaled_nonneg xs pitch x hp hmem)
  · intro y hmem
    exact Int.floor_nonneg.2 (scaled_nonneg ys pitch y hp hmem)
  · rw [hcomp1]
    exact rowIndicesImg_eq_spec xs pitch hp hbx
  · rw [hcomp2]
    exact rowIndicesImg_eq_spec ys pitch hp hby

/-- Witness for C9 on concrete coordinates and offsets. -/
theorem pixel_indices_nonneg_min_maps_zero_witness :
    (∀ x ∈ ([0, 300] : List ℚ), 0 ≤ Int.floor ((x - (qmin [0, 300] - 100 / 2)) / 100)) ∧
      (∀ y ∈ ([50, 75] : List ℚ), 0 ≤ Int.floor ((y - (qmin [50, 75] - 100 / 2)) / 100)) ∧
      (coordinates_to_pixel_indices [0, 300] [50, 75] 100 0 (-1)).1
        = specRowIndices [0, 300] 100 ∧
      (coordinates_to_pixel_indices [0, 300] [50, 75] 100 0 (-1)).2
        = specRowIndices [50, 75] 100 ∧
      (∀ x ∈ ([0, 300] : List ℚ), x = qmin [0, 300] →
        u32cast ((x - (qmin [0, 300] - 100 / 2)) / 100) = 0) ∧
      (∀ y ∈ ([50, 75] : List ℚ), y = qmin [50, 75] →
        u32cast ((y - (qmin [50, 75] - 100 / 2)) / 100) = 0) :=
  pixel_indices_nonneg_min_maps_zero [0, 300] [50, 75] 100 0 (-1)
    (by decide) (by decide) (by norm_num) (by norm_num) (by norm_num)
    (by norm_num [qmin, min_def]) (by norm_num [qmin, min_def])

/-! ## Panel geometry and local pixel coordinates
(geometry_definitions.py: PanelGeometry;
pixel_coordinates.py: generate_epix10ka_panel_coordinates,
_generate_epix10ka_xy_arrays) -/

/-- `geometry_definitions.PanelGeometry` data fields.  The `__post_init__`
validation is modelled separately by `mkPanelGeometry` below. -/
structure PanelGeometry where
  panelId : Int
  shape : Nat × Nat
  pixelSizeUm : ℚ
  widePixelSizeUm : ℚ
  positionUm : ℚ × ℚ × ℚ
  rotationDeg : ℚ × ℚ × ℚ
  tiltDeg : ℚ × ℚ × ℚ
  deriving DecidableEq, Repr

/-- `arr[0] = v` on a numpy array viewed as a list; the caller guards
the empty case (numpy raises `IndexError` there). -/
def setHead (l : List ℚ) (v : ℚ) : List ℚ :=
  match l with
  | [] => []
  | _ :: t => v :: t

/-- `pixel_coordinates._generate_epix10ka_xy_arrays(rows, cols, pixel_size,
wide_pixel_size)`: half-axes `arange(half)*pitch + wide - pitch/2` with
element 0 overwritten to `wide/2`, mirrored into full axes, then
`np.meshgrid`.  Returns `none` when a half length is zero, where the
`rhs[0] = ...` assignment raises `IndexError`. -/
def generate_epix10ka_xy_arrays (rows cols : Nat) (pixelSize wideSize : ℚ) :
    Option (List (List ℚ) × List (List ℚ)) :=
  let colsh := cols / 2
  let rowsh := rows / 2
  if colsh = 0 ∨ rowsh = 0 then none
  else
    let xrhs := setHead ((List.range colsh).map
      (fun (i : Nat) => (i : ℚ) * pixelSize + wideSize - pixelSize / 2)) (wideSize / 2)
    let yrhs := setHead ((List.range rowsh).map
      (fun (i : Nat) => (i : ℚ) * pixelSize + wideSize - pixelSize / 2)) (wideSize / 2)
    let xarr := (xrhs.reverse.map (fun q => -q)) ++ xrhs
    let yarr := yrhs.reverse ++ (yrhs.map (fun q => -q))
    some (yarr.map (fun _ => xarr), yarr.map (fun yv => xarr.map (fun _ => yv)))

/-- `pixel_coordinates.generate_epix10ka_panel_coordinates`: the X and Y
meshgrids for the panel's shape and pitches, with Z `np.zeros_like(X)`. -/
def generate_epix10ka_panel_coordinates (pg : PanelGeometry) :
    Option (List (List ℚ) × List (List ℚ) × List (List ℚ)) :=
  match generate_epix10ka_xy_arrays pg.shape.1 pg.shape.2 pg.pixelSizeUm pg.widePixelSizeUm with
  | none => none
  | some (X, Y) => some (X, Y, X.map (fun row => row.map (fun _ => (0 : ℚ))))

/-- The half-axis exactly as the specification words it:
`rhs[i] = i*pitch + wide_pitch - pitch/2` with `rhs[0]` overridden to
`wide_pitch/2`. -/
def specRhs (half : Nat) (pixelSize wideSize : ℚ) : List ℚ :=
  (List.range half).map
    (fun (i : Nat) => if i = 0 then wideSize / 2
      else (i : ℚ) * pixelSize + wideSize - pixelSize / 2)

/-- The specification's X axis: `[-reverse(rhs), rhs]`. -/
def specXAxis (cols : Nat) (pixelSize wideSize : ℚ) : List ℚ :=
  ((specRhs (cols / 2) pixelSize wideSize).reverse.map (fun q => -q)) ++
    specRhs (cols / 2) pixelSize wideSize

/-- The specification's Y axis: `[reverse(rhs), -rhs]`. -/
def specYAxis (rows : Nat) (pixelSize wideSize : ℚ) : List ℚ :=
  (specRhs (rows / 2) pixelSize wideSize).reverse ++
    ((specRhs (rows / 2) pixelSize wideSize).map (fun q => -q))

theorem setHead_range_eq_spec (h : Nat) (p w : ℚ) :
    setHead ((List.range h).map (fun (i : Nat) => (i : ℚ) * p + w - p / 2)) (w / 2) =
      specRhs h p w := by
  cases h with
  | zero => rfl
  | succ n =>
    unfold specRhs
    rw [List.range_succ_eq_map]
    simp only [List.map_cons, List.map_map, setHead, eq_self_iff_true, if_true]
    refine congrArg (List.cons (w / 2)) ?_
    apply List.map_congr_left
    intro i _
    simp only [Function.comp_apply, if_neg (Nat.succ_ne_zero i)]

theorem specRhs_length (h : Nat) (p w : ℚ) : (specRhs h p w).length = h := by
  simp [specRhs]

theorem specXAxis_length (cols : Nat) (p w : ℚ) (hce : cols % 2 = 0) :
    (specXAxis cols p w).length = cols := by
  simp [specXAxis, specRhs_length]
  omega

theorem specYAxis_length (rows : Nat) (p w : ℚ) (hre : rows % 2 = 0) :
    (specYAxis rows p w).length = rows := by
  simp [specYAxis, specRhs_length]
  omega

/-- C5 (amended): for a panel whose rows and cols are both even (and at
least 2, so the half-axes are nonempty), the generated local
coordinates are exactly the specification's axes — X axis
`[-reverse(rhs), rhs]` replicated down the rows, Y axis
`[reverse(rhs), -rhs]` replicated across the columns, with
`rhs[i] = i*pitch + wide_pitch - pitch/2` and `rhs[0] = wide_pitch/2` —
Z is zero everywhere, and all three arrays have shape exactly
`(rows, cols)`. -/
theorem panel_coordinates_axes_even_shape (pg : PanelGeometry) (rows cols : Nat)
    (hsh : pg.shape = (rows, cols)) (hre : rows % 2 = 0) (hce : cols % 2 = 0)
    (hr2 : 2 ≤ rows) (hc2 : 2 ≤ cols) :
    generate_epix10ka_panel_coordinates pg =
        some (List.replicate rows (specXAxis cols pg.pixelSizeUm pg.widePixelSizeUm),
          (specYAxis rows pg.pixelSizeUm pg.widePixelSizeUm).map
            (fun yv => List.replicate cols yv),
          List.replicate rows (List.replicate cols 0)) ∧
      (List.replicate rows (specXAxis cols pg.pixelSizeUm pg.widePixelSizeUm)).length
          = rows ∧
      (∀ row ∈ List.replicate rows (specXAxis cols pg.pixelSizeUm pg.widePixelSizeUm),
        row.length = cols) ∧
      ((specYAxis rows pg.pixelSizeUm pg.widePixelSizeUm).map
          (fun yv => List.replicate cols yv)).length = rows ∧
      (∀ row ∈ (specYAxis rows pg.pixelSizeUm pg.widePixelSizeUm).map
          (fun yv => List.replicate cols yv), row.length = cols) ∧
      (List.replicate rows (List.replicate cols (0 : ℚ))).length = rows ∧
      (∀ row ∈ List.replicate rows (List.replicate cols (0 : ℚ)), row.length = cols) := by
  have hxlen : (specXAxis cols pg.pixelSizeUm pg.widePixelSizeUm).length = cols :=
    specXAxis_length cols _ _ hce
  have hylen : (specYAxis rows pg.pixelSizeUm pg.widePixelSizeUm).length = rows :=
    specYAxis_length rows _ _ hre
  refine ⟨?_, by simp, ?_, by simp [hylen], ?_, by simp, ?_⟩
  · unfold generate_epix10ka_panel_coordinates generate_epix10ka_xy_arrays
    rw [hsh]
    simp only []
    rw [if_neg (by omega : ¬ (cols / 2 = 0 ∨ rows / 2 = 0))]
    rw [setHead_range_eq_spec, setHead_range_eq_spec]
    have hx : ((specRhs (cols / 2) pg.pixelSizeUm pg.widePixelSizeUm).reverse.map
          (fun q => -q)) ++ specRhs (cols / 2) pg.pixelSizeUm pg.widePixelSizeUm
        = specXAxis cols pg.pixelSizeUm pg.widePixelSizeUm := rfl
    have hy : (specRhs (rows / 2) pg.pixelSizeUm pg.widePixelSizeUm).reverse ++
          ((specRhs (rows / 2) pg.pixelSizeUm pg.widePixelSizeUm).map (fun q => -q))
        = specYAxis rows pg.pixelSizeUm pg.widePixelSizeUm := rfl
    rw [hx, hy]
    rw [List.map_const', hylen]
    refine congrArg some ?_
    refine congrArg (Prod.mk _) ?_
    refine congrArg₂ Prod.mk ?_ ?_
    · apply List.map_congr_left
      intro yv _
      rw [List.map_const', hxlen]
    · rw [List.map_replicate, List.map_const', hxlen]
  · intro row hrow
    rw [List.eq_of_mem_replicate hrow]
    exact hxlen
  · intro row hrow
    obtain ⟨yv, _, hrow2⟩ := List.mem_map.1 hrow
    rw [← hrow2]
    simp
  · intro row hrow
    rw [List.eq_of_mem_replicate hrow]
    simp

/-- Witness for C5 (amended) at shape (4, 6), pitch 100, wide 250. -/
theorem panel_coordinates_axes_even_shape_witness :
    generate_epix10ka_panel_coordinates
          ⟨0, (4, 6), 100, 250, (0, 0, 0), (0, 0, 0), (0, 0, 0)⟩ =
        some (List.replicate 4 (specXAxis 6 100 250),
          (specYAxis 4 100 250).map (fun yv => List.replicate 6 yv),
          List.replicate 4 (List.replicate 6 0)) ∧
      (List.replicate 4 (specXAxis 6 100 250)).length = 4 ∧
      (∀ row ∈ List.replicate 4 (specXAxis 6 100 250), row.length = 6) ∧
      ((specYAxis 4 100 250).map (fun yv => List.replicate 6 yv)).length = 4 ∧
      (∀ row ∈ (specYAxis 4 100 250).map (fun yv => List.replicate 6 yv),
        row.length = 6) ∧
      (List.replicate 4 (List.replicate 6 (0 : ℚ))).length = 4 ∧
      (∀ row ∈ List.replicate 4 (List.replicate 6 (0 : ℚ)), row.length = 6) :=
  panel_coordinates_axes_even_shape ⟨0, (4, 6), 100, 250, (0, 0, 0), (0, 0, 0), (0, 0, 0)⟩
    4 6 rfl (by decide) (by decide) (by decide) (by decide)

/-- C5 counterexample: the claim asserts output shape `(rows, cols)`
for every panel shape, but for the odd shape (3, 4) the generated X
array has 2 rows (`2 * (rows // 2)`), not 3. -/
theorem panel_coordinates_shape_counterexample :
    ((generate_epix10ka_panel_coordinates
          ⟨0, (3, 4), 100, 250, (0, 0, 0), (0, 0, 0), (0, 0, 0)⟩).map
        (fun t => t.1.length)) = some 2 ∧
      ¬ ((generate_epix10ka_panel_coordinates
          ⟨0, (3, 4), 100, 250, (0, 0, 0), (0, 0, 0), (0, 0, 0)⟩).map
        (fun t => t.1.length)) = some 3 := by
  constructor
  · rfl
  · intro h
    simp only [show ((generate_epix10ka_panel_coordinates
        ⟨0, (3, 4), 100, 250, (0, 0, 0), (0, 0, 0), (0, 0, 0)⟩).map
        (fun t => t.1.length)) = some 2 from rfl] at h
    exact absurd (Option.some.inj h) (by decide)

/-! ## Geometry definition parsing
(geometry_parser.py: _parse_geometry_line, _parse_geometry_stream,
_convert_to_panel_geometries; geometry_definitions.py:
PanelGeometry.__post_init__, DetectorGeometry.__post_init__)

Python's `int()` / `float()` built-ins are modelled on the plain
decimal grammar (optional sign, digit run, optional fractional part) —
the grammar geometry files use; scientific notation, underscores and
the special float names are outside the model.  The comment-metadata
dictionary built by `_parse_comment_line` is not modelled: comment
lines are recognised and skipped, and no claim concerns the captured
metadata. -/

/-- Value of a nonempty all-digit character run (`int()` without sign). -/
def digitsToNat (cs : List Char) : Option Nat :=
  if cs ≠ [] ∧ cs.all Char.isDigit then
    some (cs.foldl (fun a c => 10 * a + (c.toNat - 48)) 0)
  else none

/-- Python `int(s)` on the decimal grammar. -/
def parseInt (s : String) : Option Int :=
  match s.toList with
  | '-' :: cs => (digitsToNat cs).map (fun n => -(n : Int))
  | '+' :: cs => (digitsToNat cs).map (fun n => (n : Int))
  | cs => (digitsToNat cs).map (fun n => (n : Int))

/-- Unchecked digit-run value (0 for the empty run). -/
def digitsVal (cs : List Char) : Nat :=
  cs.foldl (fun a c => 10 * a + (c.toNat - 48)) 0

/-- Python `float(s)` on an unsigned decimal: `digits`, `digits.`,
`.digits` or `digits.digits`. -/
def parseUnsignedFloat (cs : List Char) : Option ℚ :=
  match List.splitOn '.' cs with
  | [ip] => if ip ≠ [] ∧ ip.all Char.isDigit then some ((digitsVal ip : ℚ)) else none
  | [ip, fp] =>
      if (ip ≠ [] ∨ fp ≠ []) ∧ ip.all Char.isDigit ∧ fp.all Char.isDigit then
        some ((digitsVal ip : ℚ) + (digitsVal fp : ℚ) / 10 ^ fp.length)
      else none
  | _ => none

/-- Python `float(s)` on the signed decimal grammar. -/
def parseFloat (s : String) : Option ℚ :=
  match s.toList with
  | '-' :: cs => (parseUnsignedFloat cs).map (fun q => -q)
  | '+' :: cs => parseUnsignedFloat cs
  | cs => parseUnsignedFloat cs

/-- `geometry_definitions.GeometryObject`: one parsed data line. -/
structure GeometryObject where
  parent : String
  parentIndex : Int
  objectName : String
  objectIndex : Int
  x0 : ℚ
  y0 : ℚ
  z0 : ℚ
  rotZ : ℚ
  rotY : ℚ
  rotX : ℚ
  tiltZ : ℚ
  tiltY : ℚ
  tiltX : ℚ
  deriving DecidableEq, Repr

/-- Reasons `_parse_geometry_line` raises `ValueError`. -/
inductive LineErr where
  | fieldCount (got : Nat) : LineErr
  | badNumeric : LineErr
  deriving DecidableEq, Repr

/-- Errors escaping the stream parser: per-line `GeometryParseError`
(with line number and stripped line content) and the `ValueError`s of
the dataclass validators. -/
inductive GeomErr where
  | lineError (lineNum : Nat) (content : String) (e : LineErr) : GeomErr
  | panelIdOutOfRange (id : Int) : GeomErr
  | noPanels : GeomErr
  | nonSequentialIds : GeomErr
  deriving DecidableEq, Repr

/-- Auxiliary state machine for whitespace splitting: `cur` holds the
current field's characters in reverse. -/
def splitWSAux : List Char → List Char → List String
  | [], cur => if cur.isEmpty then [] else [String.mk cur.reverse]
  | c :: cs, cur =>
    if c.isWhitespace then
      if cur.isEmpty then splitWSAux cs []
      else String.mk cur.reverse :: splitWSAux cs []
    else splitWSAux cs (c :: cur)

/-- Python `str.split()` with no argument: split on whitespace runs,
discarding empty pieces. -/
def splitWS (s : String) : List String := splitWSAux s.data []

/-- Python `str.startswith` on character lists. -/
def charsStartWith : List Char → List Char → Bool
  | _, [] => true
  | [], _ :: _ => false
  | c :: cs, p :: ps => c = p && charsStartWith cs ps

/-- Python `str.startswith`. -/
def strStartsWith (s pre : String) : Bool := charsStartWith s.data pre.data

/-- Python `str.strip()`: drop whitespace from both ends. -/
def strTrim (s : String) : String :=
  String.mk (((s.data.dropWhile Char.isWhitespace).reverse.dropWhile
    Char.isWhitespace).reverse)

/-- The field conversions of `_parse_geometry_line`: `int(fields[1])`,
`int(fields[3])` and `float(fields[4..12])`; any conversion failure is
the `ValueError` path. -/
def parseFields (fs : List String) : Option GeometryObject :=
  (parseInt (fs.getD 1 "")).bind (fun pIdx =>
  (parseInt (fs.getD 3 "")).bind (fun oIdx =>
  (parseFloat (fs.getD 4 "")).bind (fun x0 =>
  (parseFloat (fs.getD 5 "")).bind (fun y0 =>
  (parseFloat (fs.getD 6 "")).bind (fun z0 =>
  (parseFloat (fs.getD 7 "")).bind (fun rz =>
  (parseFloat (fs.getD 8 "")).bind (fun ry =>
  (parseFloat (fs.getD 9 "")).bind (fun rx =>
  (parseFloat (fs.getD 10 "")).bind (fun tz =>
  (parseFloat (fs.getD 11 "")).bind (fun ty =>
  (parseFloat (fs.getD 12 "")).bind (fun tx =>
  some ⟨fs.getD 0 "", pIdx, fs.getD 2 "", oIdx,
    x0, y0, z0, rz, ry, rx, tz, ty, tx⟩)))))))))))

/-- `geometry_parser._parse_geometry_line`: `None` for comment/`HDR`
lines, `ValueError` when fewer than 13 fields or a numeric conversion
fails, otherwise the parsed object (fields beyond the 13th ignored). -/
def parse_geometry_line (line : String) : Except LineErr (Option GeometryObject) :=
  if strStartsWith line "#" ∨ strStartsWith line "HDR" then .ok none
  else
    let fs := splitWS line
    if fs.length < 13 then .error (.fieldCount fs.length)
    else
      match parseFields fs with
      | some g => .ok (some g)
      | none => .error .badNumeric

/-- One iteration of the `_parse_geometry_stream` loop: strip, skip
empty and comment lines, parse a data line, and wrap a line failure in
a `GeometryParseError` carrying the line number and content. -/
def processLine (n : Nat) (line : String) : Except GeomErr (Option GeometryObject) :=
  let s := strTrim line
  if s = "" then .ok none
  else if strStartsWith s "#" then .ok none
  else
    match parse_geometry_line s with
    | .ok r => .ok r
    | .error e => .error (.lineError n s e)

/-- The `_parse_geometry_stream` loop over all lines (line numbers
start at 1). -/
def parseLines : Nat → List String → Except GeomErr (List GeometryObject)
  | _, [] => .ok []
  | n, l :: ls =>
    match processLine n l with
    | .error e => .error e
    | .ok none => parseLines (n + 1) ls
    | .ok (some g) =>
      match parseLines (n + 1) ls with
      | .error e => .error e
      | .ok gs => .ok (g :: gs)

/-- `PanelGeometry(...)` construction including the `__post_init__`
validation: panel id must lie in 0..15 (the `len(shape) == 2` check
holds by construction in the typed model). -/
def mkPanelGeometry (panelId : Int) (shape : Nat × Nat) (pixelSize wideSize : ℚ)
    (pos rot tilt : ℚ × ℚ × ℚ) : Except GeomErr PanelGeometry :=
  if panelId < 0 ∨ 15 < panelId then .error (.panelIdOutOfRange panelId)
  else .ok ⟨panelId, shape, pixelSize, wideSize, pos, rot, tilt⟩

/-- Constants of geometry_definitions.py. -/
def EPIX10KA2M_PANEL_SHAPE : Nat × Nat := (352, 384)

def EPIX10KA2M_PIXEL_SIZE_UM : ℚ := 100

def EPIX10KA2M_WIDE_PIXEL_SIZE_UM : ℚ := 250

/-- `panels[panel_id] = panel` on the dictionary viewed as an
association list (later assignment to the same id overwrites). -/
def upsert (k : Int) (v : PanelGeometry) :
    List (Int × PanelGeometry) → List (Int × PanelGeometry)
  | [] => [(k, v)]
  | (k0, v0) :: t => if k0 = k then (k, v) :: t else (k0, v0) :: upsert k v t

/-- The loop of `_convert_to_panel_geometries`: keep objects named
`EPIX10KA:V1`, building a `PanelGeometry` for each (which may raise). -/
def convertGo (acc : List (Int × PanelGeometry)) :
    List GeometryObject → Except GeomErr (List (Int × PanelGeometry))
  | [] => .ok acc
  | g :: gs =>
    if g.objectName = "EPIX10KA:V1" then
      match mkPanelGeometry g.objectIndex EPIX10KA2M_PANEL_SHAPE EPIX10KA2M_PIXEL_SIZE_UM
          EPIX10KA2M_WIDE_PIXEL_SIZE_UM (g.x0, g.y0, g.z0) (g.rotZ, g.rotY, g.rotX)
          (g.tiltZ, g.tiltY, g.tiltX) with
      | .error e => .error e
      | .ok p => convertGo (upsert g.objectIndex p acc) gs
    else convertGo acc gs

/-- `geometry_definitions.DetectorGeometry` (name and panels; the
comment dictionary is not modelled). -/
structure DetectorGeometry where
  detectorName : String
  panels : List (Int × PanelGeometry)
  deriving DecidableEq, Repr

/-- Insert into a sorted list (for Python's `sorted`). -/
def insertSorted (x : Int) : List Int → List Int
  | [] => [x]
  | y :: t => if x ≤ y then x :: y :: t else y :: insertSorted x t

/-- Python `sorted` on integers. -/
def sortInts (l : List Int) : List Int := l.foldr insertSorted []

/-- `DetectorGeometry(...)` construction including `__post_init__`:
at least one panel, and sorted panel ids equal to `0..N-1`. -/
def mkDetectorGeometry (name : String) (panels : List (Int × PanelGeometry)) :
    Except GeomErr DetectorGeometry :=
  if panels = [] then .error .noPanels
  else if sortInts (panels.map Prod.fst) = (List.range panels.length).map Int.ofNat then
    .ok ⟨name, panels⟩
  else .error .nonSequentialIds

/-- `_parse_geometry_stream`: parse all lines, convert to panels,
build the detector model; any `ValueError` raised by the dataclass
validators propagates (and `parse_geometry_file` rewraps it in a
`GeometryParseError`, still a failure). -/
def parse_geometry_stream (name : String) (lines : List String) :
    Except GeomErr DetectorGeometry :=
  match parseLines 1 lines with
  | .error e => .error e
  | .ok objs =>
    match convertGo [] objs with
    | .error e => .error e
    | .ok panels => mkDetectorGeometry name panels

/-- Inversion of `parseFields`: a successfully parsed object carries
exactly the converted field values. -/
theorem parseFields_inv (fs : List String) (g : GeometryObject)
    (h : parseFields fs = some g) :
    g.parent = fs.getD 0 "" ∧ parseInt (fs.getD 1 "") = some g.parentIndex ∧
      g.objectName = fs.getD 2 "" ∧ parseInt (fs.getD 3 "") = some g.objectIndex ∧
      parseFloat (fs.getD 4 "") = some g.x0 ∧ parseFloat (fs.getD 5 "") = some g.y0 ∧
      parseFloat (fs.getD 6 "") = some g.z0 ∧ parseFloat (fs.getD 7 "") = some g.rotZ ∧
      parseFloat (fs.getD 8 "") = some g.rotY ∧ parseFloat (fs.getD 9 "") = some g.rotX ∧
      parseFloat (fs.getD 10 "") = some g.tiltZ ∧ parseFloat (fs.getD 11 "") = some g.tiltY ∧
      parseFloat (fs.getD 12 "") = some g.tiltX := by
  unfold parseFields at h
  obtain ⟨pIdx, h1, h⟩ := Option.bind_eq_some.1 h
  obtain ⟨oIdx, h2, h⟩ := Option.bind_eq_some.1 h
  obtain ⟨x0, h3, h⟩ := Option.bind_eq_some.1 h
  obtain ⟨y0, h4, h⟩ := Option.bind_eq_some.1 h
  obtain ⟨z0, h5, h⟩ := Option.bind_eq_some.1 h
  obtain ⟨rz, h6, h⟩ := Option.bind_eq_some.1 h
  obtain ⟨ry, h7, h⟩ := Option.bind_eq_some.1 h
  obtain ⟨rx, h8, h⟩ := Option.bind_eq_some.1 h
  obtain ⟨tz, h9, h⟩ := Option.bind_eq_some.1 h
  obtain ⟨ty, h10, h⟩ := Option.bind_eq_some.1 h
  obtain ⟨tx, h11, h⟩ := Option.bind_eq_some.1 h
  cases Option.some.inj h
  exact ⟨rfl, h1, rfl, h2, h3, h4, h5, h6, h7, h8, h9, h10, h11⟩

/-- C8 (amended): for a data line (nonempty after stripping, not a
comment, not a header), the stream parser fails with a
`GeometryParseError` carrying the line number and stripped content
whenever the whitespace-separated field count is below 13 or one of
the 13 converted fields is malformed; a line with at least 13 fields
whose first 13 are well-formed parses into the corresponding
name/index/position/rotation/tilt values (fields beyond the 13th are
ignored — the claim's "exactly 13" is refuted separately). -/
theorem geometry_line_parse_behavior (n : Nat) (line : String)
    (hne : strTrim line ≠ "") (hnc : ¬ strStartsWith (strTrim line) "#" = true)
    (hnh : ¬ strStartsWith (strTrim line) "HDR" = true) :
    ((splitWS (strTrim line)).length < 13 →
        processLine n line =
          .error (.lineError n (strTrim line)
            (.fieldCount (splitWS (strTrim line)).length))) ∧
      (parseFields (splitWS (strTrim line)) = none →
        13 ≤ (splitWS (strTrim line)).length →
        processLine n line = .error (.lineError n (strTrim line) .badNumeric)) ∧
      (∀ g, parseFields (splitWS (strTrim line)) = some g →
        13 ≤ (splitWS (strTrim line)).length →
        processLine n line = .ok (some g) ∧
          (g.parent = (splitWS (strTrim line)).getD 0 "" ∧
            parseInt ((splitWS (strTrim line)).getD 1 "") = some g.parentIndex ∧
            g.objectName = (splitWS (strTrim line)).getD 2 "" ∧
            parseInt ((splitWS (strTrim line)).getD 3 "") = some g.objectIndex ∧
            parseFloat ((splitWS (strTrim line)).getD 4 "") = some g.x0 ∧
            parseFloat ((splitWS (strTrim line)).getD 5 "") = some g.y0 ∧
            parseFloat ((splitWS (strTrim line)).getD 6 "") = some g.z0 ∧
            parseFloat ((splitWS (strTrim line)).getD 7 "") = some g.rotZ ∧
            parseFloat ((splitWS (strTrim line)).getD 8 "") = some g.rotY ∧
            parseFloat ((splitWS (strTrim line)).getD 9 "") = some g.rotX ∧
            parseFloat ((splitWS (strTrim line)).getD 10 "") = some g.tiltZ ∧
            parseFloat ((splitWS (strTrim line)).getD 11 "") = some g.tiltY ∧
            parseFloat ((splitWS (strTrim line)).getD 12 "") = some g.tiltX)) := by
  have hbase : ∀ (r : Except LineErr (Option GeometryObject)),
      parse_geometry_line (strTrim line) = r →
      processLine n line = (match r with
        | .ok v => .ok v
        | .error e => .error (.lineError n (strTrim line) e)) := by
    intro r hr
    unfold processLine
    rw [if_neg hne, if_neg hnc, hr]
  have hguard : ¬ (strStartsWith (strTrim line) "#" = true ∨
      strStartsWith (strTrim line) "HDR" = true) := not_or.2 ⟨hnc, hnh⟩
  refine ⟨?_, ?_, ?_⟩
  · intro hlt
    have hr : parse_geometry_line (strTrim line) =
        .error (.fieldCount (splitWS (strTrim line)).length) := by
      unfold parse_geometry_line
      rw [if_neg hguard]
      simp only []
      rw [if_pos hlt]
    exact hbase _ hr
  · intro hpf hge
    have hr : parse_geometry_line (strTrim line) = .error .badNumeric := by
      unfold parse_geometry_line
      rw [if_neg hguard]
      simp only []
      rw [if_neg (not_lt.2 hge), hpf]
    exact hbase _ hr
  · intro g hpf hge
    have hr : parse_geometry_line (strTrim line) = .ok (some g) := by
      unfold parse_geometry_line
      rw [if_neg hguard]
      simp only []
      rw [if_neg (not_lt.2 hge), hpf]
    exact ⟨hbase _ hr, parseFields_inv _ _ hpf⟩

instance {ε α : Type} [DecidableEq ε] [DecidableEq α] : DecidableEq (Except ε α) := fun a b =>
  match a, b with
  | .ok x, .ok y =>
    if h : x = y then .isTrue (by rw [h]) else .isFalse (fun hc => h (Except.ok.inj hc))
  | .error x, .error y =>
    if h : x = y then .isTrue (by rw [h]) else .isFalse (fun hc => h (Except.error.inj hc))
  | .ok _, .error _ => .isFalse (fun hc => Except.noConfusion hc)
  | .error _, .ok _ => .isFalse (fun hc => Except.noConfusion hc)

/-- Witness for C8 (amended): a 13-field data line parses into the
corresponding values. -/
theorem geometry_line_parse_behavior_witness :
    processLine 7 "a 1 b 2 3 4 5 6 7 8 9 10 11" =
      .ok (some ⟨"a", 1, "b", 2, 3, 4, 5, 6, 7, 8, 9, 10, 11⟩) :=
  ((geometry_line_parse_behavior 7 "a 1 b 2 3 4 5 6 7 8 9 10 11"
      (by decide) (by decide) (by decide)).2.2
    ⟨"a", 1, "b", 2, 3, 4, 5, 6, 7, 8, 9, 10, 11⟩ (by decide) (by decide)).1

/-- C8 counterexample: the claim says parsing fails whenever the field
count is not exactly 13, but a line with 14 well-formed fields parses
successfully (the 14th field is silently ignored). -/
theorem geometry_line_fourteen_fields_counterexample :
    (splitWS (strTrim "a 1 b 2 3 4 5 6 7 8 9 10 11 12")).length = 14 ∧
      processLine 1 "a 1 b 2 3 4 5 6 7 8 9 10 11 12" =
        .ok (some ⟨"a", 1, "b", 2, 3, 4, 5, 6, 7, 8, 9, 10, 11⟩) := by
  constructor
  · decide
  · decide

/-- If some object in the list is an `EPIX10KA:V1` panel whose index
falls outside 0..15, the conversion loop fails with the
`PanelGeometry` constructor's error. -/
theorem convertGo_error (objs : List GeometryObject) :
    ∀ (acc : List (Int × PanelGeometry)),
      (∃ g ∈ objs, g.objectName = "EPIX10KA:V1" ∧
        (g.objectIndex < 0 ∨ 15 < g.objectIndex)) →
      ∃ e, convertGo acc objs = .error e := by
  induction objs with
  | nil =>
    intro acc hex
    obtain ⟨g, hg, _⟩ := hex
    cases hg
  | cons h t ih =>
    intro acc hex
    obtain ⟨g, hmem, hname, hidx⟩ := hex
    by_cases hn : h.objectName = "EPIX10KA:V1"
    · cases hmk : mkPanelGeometry h.objectIndex EPIX10KA2M_PANEL_SHAPE
          EPIX10KA2M_PIXEL_SIZE_UM EPIX10KA2M_WIDE_PIXEL_SIZE_UM (h.x0, h.y0, h.z0)
          (h.rotZ, h.rotY, h.rotX) (h.tiltZ, h.tiltY, h.tiltX) with
      | error e =>
        refine ⟨e, ?_⟩
        simp only [convertGo, if_pos hn, hmk]
      | ok p =>
        rcases List.mem_cons.1 hmem with hgh | hmem2
        · exfalso
          subst hgh
          unfold mkPanelGeometry at hmk
          rw [if_pos (by omega)] at hmk
          exact Except.noConfusion hmk
        · obtain ⟨e, he⟩ := ih (upsert h.objectIndex p acc) ⟨g, hmem2, hname, hidx⟩
          refine ⟨e, ?_⟩
          simp only [convertGo, if_pos hn, hmk]
          exact he
    · rcases List.mem_cons.1 hmem with hgh | hmem2
      · exact absurd (hgh ▸ hname) hn
      · obtain ⟨e, he⟩ := ih acc ⟨g, hmem2, hname, hidx⟩
        refine ⟨e, ?_⟩
        simp only [convertGo, if_neg hn]
        exact he

/-- C10: the `PanelGeometry` constructor rejects any panel id outside
0..15 (the limit of 16 panels is hardcoded in `__post_init__`, not
derived from the file), and consequently a geometry stream whose
parsed objects contain an `EPIX10KA:V1` line with object index above
15 fails to parse instead of returning a detector model. -/
theorem panel_id_range_enforced :
    (∀ (panelId : Int) (shape : Nat × Nat) (ps ws : ℚ) (pos rot tilt : ℚ × ℚ × ℚ),
        (panelId < 0 ∨ 15 < panelId) →
        mkPanelGeometry panelId shape ps ws pos rot tilt =
          .error (.panelIdOutOfRange panelId)) ∧
      (∀ (name : String) (lines : List String) (objs : List GeometryObject)
          (g : GeometryObject), parseLines 1 lines = .ok objs → g ∈ objs →
        g.objectName = "EPIX10KA:V1" → 15 < g.objectIndex →
        ∃ e, parse_geometry_stream name lines = .error e) := by
  constructor
  · intro panelId shape ps ws pos rot tilt hout
    unfold mkPanelGeometry
    rw [if_pos hout]
  · intro name lines objs g hpl hmem hname hidx
    obtain ⟨e, he⟩ := convertGo_error objs [] ⟨g, hmem, hname, Or.inr hidx⟩
    refine ⟨e, ?_⟩
    unfold parse_geometry_stream
    rw [hpl]
    show (match convertGo [] objs with
      | .error e => Except.error e
      | .ok panels => mkDetectorGeometry name panels) = Except.error e
    rw [he]

/-- Witness for C10: a single panel line with object index 16. -/
theorem panel_id_range_enforced_witness :
    mkPanelGeometry 16 EPIX10KA2M_PANEL_SHAPE EPIX10KA2M_PIXEL_SIZE_UM
        EPIX10KA2M_WIDE_PIXEL_SIZE_UM (0, 0, 0) (0, 0, 0) (0, 0, 0) =
      .error (.panelIdOutOfRange 16) ∧
    ∃ e, parse_geometry_stream "epix10ka2m"
        ["CAMERA 0 EPIX10KA:V1 16 0 0 0 0 0 0 0 0 0"] = .error e :=
  ⟨panel_id_range_enforced.1 16 EPIX10KA2M_PANEL_SHAPE EPIX10KA2M_PIXEL_SIZE_UM
      EPIX10KA2M_WIDE_PIXEL_SIZE_UM (0, 0, 0) (0, 0, 0) (0, 0, 0) (by decide),
    panel_id_range_enforced.2 "epix10ka2m" ["CAMERA 0 EPIX10KA:V1 16 0 0 0 0 0 0 0 0 0"]
      [⟨"CAMERA", 0, "EPIX10KA:V1", 16, 0, 0, 0, 0, 0, 0, 0, 0, 0⟩]
      ⟨"CAMERA", 0, "EPIX10KA:V1", 16, 0, 0, 0, 0, 0, 0, 0, 0, 0⟩
      (by decide) (by decide) (by decide) (by decide)⟩

end XTC1
